import Mathlib

/-!
Verification of the tabular genomic record pipeline of
`mining_pd_genetics_imaging_1.ipynb` (PPMI genotype quality-control notebook).

Each definition below is a shallow embedding of a notebook cell (or, where the
notebook delegates to the external `plink` tool or to files provided outside
the sources, a model written from the specification and marked as such in its
doc comment).  The theorems settle the frozen claims C1..C10 about the spec.
-/

namespace PDPipeline

/-! ## Python string replacement (cell 9 of the notebook)

`pyReplaceAux` embeds Python's `str.replace(old, new)` for a non-empty
pattern: scan the string left to right, replacing each non-overlapping
occurrence of `pat` by `rep`.  The fuel argument is the length of the
scanned string; every step consumes at least one character of `s`, so the
fuel never runs out on the initial call.  (Python's behaviour on an empty
pattern — interleaving `rep` between characters — is irrelevant here: the
notebook only replaces the non-empty patterns "23", "24", "25", "26".)
-/

def pyReplaceAux (pat rep : List Char) : Nat → List Char → List Char
  | 0, s => s
  | _ + 1, [] => []
  | fuel + 1, c :: rest =>
    if (c :: rest).take pat.length = pat then
      rep ++ pyReplaceAux pat rep fuel ((c :: rest).drop pat.length)
    else
      c :: pyReplaceAux pat rep fuel rest

def pyReplace (s pat rep : String) : String :=
  if pat.toList = [] then s
  else ⟨pyReplaceAux pat.toList rep.toList s.toList.length s.toList⟩

/-- Cell 9: `tmp_chr_str5` — the sequential `.replace()` chain applied to a
"chr"-prefixed chromosome label: 23→X, then 24→Y, then 25→X, then 26→MT. -/
def remapChrom (s : String) : String :=
  pyReplace (pyReplace (pyReplace (pyReplace s "23" "X") "24" "Y") "25" "X") "26" "MT"

/-! ## Variant records (PLINK BIM rows) and the liftover interval file

A BIM row has six fields: chromosome code, variant identifier, position in
centimorgans, base-pair coordinate, allele 1, allele 2 (notebook cell 3).
Cell 9 builds the UCSC interval ("BED") rows from columns 0, 3, 1 of the BIM:
`(tmp_chr_str5, tmp_pos, tmp_pos + 1, tmp_name)`.
-/

structure Variant where
  chrom : Nat
  id : String
  cm : Int
  pos : Nat
  a1 : String
  a2 : String
deriving DecidableEq

/-- Cell 9: `''.join(["chr", str(c)])` — prepend "chr" to the chromosome. -/
def tmp_chr_str (v : Variant) : String :=
  "chr" ++ toString v.chrom

/-- Cell 9: one row of the UCSC interval file
`(chrom label, start, stop, feature id)`. -/
def bedRow (v : Variant) : String × Nat × Nat × String :=
  (remapChrom (tmp_chr_str v), v.pos, v.pos + 1, v.id)

/-- Cell 9: the interval file written to `IMMUNO_tolift.bed`, one row per
variant of the input BIM, in order. -/
def bed (vs : List Variant) : List (String × Nat × Nat × String) :=
  vs.map bedRow

/-- Written from the spec's words (section 6, for the refinement claims):
a one-shot total chromosome-label mapping, 23→X, 24→Y, 25→X, 26→MT, every
other code just "chr"-prefixed. -/
def chromLabelSpec (c : Nat) : String :=
  if c = 23 then "chrX"
  else if c = 24 then "chrY"
  else if c = 25 then "chrX"
  else if c = 26 then "chrMT"
  else "chr" ++ toString c

/-- Concrete variant with a remapped chromosome code, used as a witness. -/
def exVariant23 : Variant :=
  ⟨23, "rs23", 0, 100, "A", "G"⟩

/-- Concrete variant with an autosomal chromosome code, used as a witness. -/
def exVariant7 : Variant :=
  ⟨7, "rs7", 0, 200, "C", "T"⟩

/-! ## Sample records (PLINK FAM rows) and the sex-discrepancy exclusion

Cell 35 reads the `--check-sex` output with a header row (columns
FID, IID, PEDSEX, SNPSEX, STATUS, F); only the first two columns and STATUS
are used by the exclusion stage, so the embedding keeps those.  Cell 37
selects the rows with `STATUS == "PROBLEM"`, takes the first two columns
and writes them with `to_csv(..., sep=" ", index=False)`; pandas' `to_csv`
default is `header=True`, so the written file starts with the column-name
line "FID IID" before the data rows.
-/

structure FamRec where
  fid : String
  iid : String
  fath : String
  moth : String
  sex : Int
  pheno : Int
deriving DecidableEq

structure SexCheckRec where
  fid : String
  iid : String
  status : String
deriving DecidableEq

/-- Cell 37: the `(FID, IID)` pairs of the samples flagged `"PROBLEM"`. -/
def subjProblemRows (cs : List SexCheckRec) : List (String × String) :=
  (cs.filter (fun r => r.status = "PROBLEM")).map (fun r => (r.fid, r.iid))

/-- Cell 37: the lines of `subjs_toremove.txt` — the pandas column-name
header line followed by one space-separated `FID IID` line per flagged
sample. -/
def subjProblemLines (cs : List SexCheckRec) : List String :=
  "FID IID" :: (subjProblemRows cs).map (fun p => p.1 ++ " " ++ p.2)

/-- Split a removal-file line at its first space into an `(FID, IID)` pair
(the part before the first space and the part after it). -/
def parsePair (line : String) : String × String :=
  (⟨line.toList.takeWhile (fun c => decide (c ≠ ' '))⟩,
   ⟨(line.toList.dropWhile (fun c => decide (c ≠ ' '))).drop 1⟩)

/-- Modelled from the spec: the `plink --remove` filter (the invocation in
cell 37; plink itself is the external tool, not part of the sources).  Per
the spec's exclusion-stage contract it keeps exactly the samples whose
`(FID, IID)` pair is not listed in the removal file; a listed pair matching
no sample removes nothing. -/
def plinkRemove (fam : List FamRec) (lines : List String) : List FamRec :=
  fam.filter (fun s => decide ((s.fid, s.iid) ∉ lines.map parsePair))

/-- Concrete FAM rows of the C2 end-to-end scenario. -/
def exFam : List FamRec :=
  [⟨"FAM1", "S1", "0", "0", 1, 2⟩, ⟨"FAM2", "S2", "0", "0", 2, 1⟩]

/-- Concrete ancestry/sex-check output of the C2 scenario: S1 is flagged. -/
def exCheck : List SexCheckRec :=
  [⟨"FAM1", "S1", "PROBLEM"⟩, ⟨"FAM2", "S2", "OK"⟩]

/-! ## Principal-component rows and the z-score ancestry filter

Cell 58 assigns the eigenvector output the columns `FID, IID, PC1..PC20`.
Cell 62 computes componentwise z-scores of the columns PC1..PC5 against the
reference population's mean and standard deviation, and cell 63 keeps a
sample iff the number of components with `abs(z) > 5` is zero
(`keep_ppmi`); cell 64 retains the kept rows unchanged
(`ppmi_pca[keep_ppmi]`).  PC values are modelled as rationals.
-/

structure SampleRec where
  fid : String
  iid : String
  pcs : List ℚ
deriving DecidableEq

/-- Cell 62: componentwise z-scores `(x - mean) / sd` of a row against the
reference means and standard deviations. -/
def zRow (means sds xs : List ℚ) : List ℚ :=
  (xs.zip (means.zip sds)).map (fun p => (p.1 - p.2.1) / p.2.2)

/-- Cell 63: `keep_ppmi` — keep a sample iff the count of its first five
component z-scores with absolute value above 5 is zero. -/
def keep_ppmi (means sds : List ℚ) (r : SampleRec) : Bool :=
  decide ((zRow means sds (r.pcs.take 5)).countP (fun z => decide (5 < |z|)) = 0)

/-- Cell 64: `ppmi_pca[keep_ppmi]` — retain exactly the masked rows,
unchanged and in order. -/
def ceuFilter (means sds : List ℚ) (samples : List SampleRec) : List SampleRec :=
  samples.filter (keep_ppmi means sds)

/-- The C3 scenario's reference means: 0 for each of the five components. -/
def refMean5 : List ℚ :=
  [0, 0, 0, 0, 0]

/-- The C3 scenario's reference standard deviations: 1 for each component. -/
def refSd5 : List ℚ :=
  [1, 1, 1, 1, 1]

/-- Concrete PC row whose first component exceeds the threshold. -/
def exOutlier : SampleRec :=
  ⟨"3001", "3001", [6, 0, 0, 0, 0]⟩

/-- Concrete PC row with every component inside the threshold. -/
def exInlier : SampleRec :=
  ⟨"3002", "3002", [1, -1, 2, 0, 3]⟩

/-- Concrete two-row PC table for the C3 witness. -/
def exPca : List SampleRec :=
  [exOutlier, exInlier]

/-! ## The ambiguous-allele exclusion (cell 48)

`bad1`..`bad4` select the A/T, T/A, C/G and G/C rows of the BIM;
`badSnps` is their concatenation, `badSnps_set` the set of their
identifiers, written to `badsnps.txt` and passed to `plink --exclude`.
-/

def badSnps (vs : List Variant) : List Variant :=
  vs.filter (fun v => decide (v.a1 = "A" ∧ v.a2 = "T")) ++
    vs.filter (fun v => decide (v.a1 = "T" ∧ v.a2 = "A")) ++
    vs.filter (fun v => decide (v.a1 = "C" ∧ v.a2 = "G")) ++
    vs.filter (fun v => decide (v.a1 = "G" ∧ v.a2 = "C"))

/-- Cell 48: the identifiers of the ambiguous variants (the content of
`badsnps.txt`, whose order is settled separately under C10). -/
def badSnpIds (vs : List Variant) : List String :=
  (badSnps vs).map (fun v => v.id)

/-- Modelled from the spec: the `plink --exclude` filter (the invocation in
cell 48; plink itself is the external tool, not part of the sources).  It
keeps exactly the variants whose identifier is not in the exclusion list. -/
def ambiguousFilter (vs : List Variant) : List Variant :=
  vs.filter (fun v => decide (v.id ∉ badSnpIds vs))

/-- The four ambiguous allele pairs. -/
def ambigPairs : List (String × String) :=
  [("A", "T"), ("T", "A"), ("C", "G"), ("G", "C")]

def exA1 : Variant := ⟨1, "s1", 0, 101, "A", "T"⟩
def exA2 : Variant := ⟨1, "s2", 0, 102, "T", "A"⟩
def exA3 : Variant := ⟨1, "s3", 0, 103, "C", "G"⟩
def exA4 : Variant := ⟨1, "s4", 0, 104, "G", "C"⟩
def exA5 : Variant := ⟨1, "s5", 0, 105, "A", "C"⟩

/-- The C4 scenario: five variants with allele pairs
(A,T), (T,A), (C,G), (G,C), (A,C). -/
def exAmbig : List Variant :=
  [exA1, exA2, exA3, exA4, exA5]

/-! ## The generic filter stage

Every pandas boolean-mask row selection of the notebook (cells 37, 48 and
62–64) is a filter over an ordered record set; `filterStage` is that
operation.
-/

def filterStage {α : Type} (p : α → Bool) (rs : List α) : List α :=
  rs.filter p

/-- Concrete predicate for the C6 witness. -/
def evenPred : Nat → Bool :=
  fun n => decide (n % 2 = 0)

/-- Concrete record set for the C6 witness. -/
def exNums : List Nat :=
  [1, 2, 3, 4]

/-! ## The join/intersection stage

Cell 15 (`common_subj`) and cell 51 (`hp_snps`) intersect two Python sets
of identifiers: `set(A).intersection(set(B))`.  Python sets of strings are
modelled as finite sets.
-/

/-- Cell 51: the SNP ids common to the PPMI and HapMap BIMs. -/
def hp_snps (A B : Finset String) : Finset String :=
  A ∩ B

/-- Cell 15: the subject ids with data in both IMMUNO and NEUROX. -/
def common_subj (A B : Finset String) : Finset String :=
  A ∩ B

/-! ## The rekeying stage (cell 16)

Cell 16 renames each SNP of both datasets as `chrom:pos_A1_A2`.  The
renamed BIM/BED/FAM files (`IMMUNO_renamed`, `NEUROX_renamed`) are provided
with the course data rather than computed in the sources, so the key
derivation itself is modelled from the spec: concatenate chromosome,
position and both alleles with the fixed separators ':', '_', '_'.
-/

/-- Little-endian decimal digits of a natural number, by structural
recursion on a fuel argument; `fuel = n` always suffices because the
quotient shrinks at every step. -/
def natDigitsAux : Nat → Nat → List Nat
  | 0, _ => []
  | _ + 1, 0 => []
  | fuel + 1, n + 1 => ((n + 1) % 10) :: natDigitsAux fuel ((n + 1) / 10)

/-- Little-endian decimal digits of `n` (empty for 0; chromosome codes and
1-based positions in a BIM row are positive). -/
def natDigits (n : Nat) : List Nat :=
  natDigitsAux n n

/-- Rebuild a number from its little-endian decimal digits. -/
def unDigits : List Nat → Nat
  | [] => 0
  | d :: ds => d + 10 * unDigits ds

/-- The character of one decimal digit. -/
def digitChar (d : Nat) : Char :=
  Char.ofNat (48 + d)

/-- The decimal numeral of `n`, most significant digit first. -/
def natChars (n : Nat) : List Char :=
  ((natDigits n).reverse).map digitChar

/-- Modelled from the spec: the characters of the derived key
`chrom:pos_A1_A2` of cell 16 (the renamed files are not computed in the
sources). -/
def derivedKeyChars (v : Variant) : List Char :=
  natChars v.chrom ++ (':' :: (natChars v.pos ++ ('_' :: (v.a1.toList ++ ('_' :: v.a2.toList)))))

/-- Modelled from the spec: the derived key `chrom:pos_A1_A2` as a string. -/
def derivedKey (v : Variant) : String :=
  ⟨derivedKeyChars v⟩

/-- The four single-character nucleotide allele strings. -/
def nucStrings : List String :=
  ["A", "C", "G", "T"]

/-- The part of a character list before its first occurrence of `sep`, and
the part after it. -/
def splitHead (sep : Char) (l : List Char) : List Char × List Char :=
  (l.takeWhile (fun c => decide (c ≠ sep)),
   (l.dropWhile (fun c => decide (c ≠ sep))).drop 1)

/-- The decoder of a derived key: the segment before the first ':', then
the segment before the next '_', then the segment before the next '_', then
the rest. -/
def decodeKey (l : List Char) : List Char × List Char × List Char × List Char :=
  ((splitHead ':' l).1,
   (splitHead '_' (splitHead ':' l).2).1,
   (splitHead '_' (splitHead '_' (splitHead ':' l).2).2).1,
   (splitHead '_' (splitHead '_' (splitHead ':' l).2).2).2)

/-- Two distinctly-named variants of the same locus and alleles, as found
across the IMMUNO and NEUROX datasets. -/
def exKeyA : Variant :=
  ⟨1, "immuno_101", 0, 12, "A", "G"⟩

/-- The same locus under the other dataset's naming convention. -/
def exKeyB : Variant :=
  ⟨1, "neurox_786", 7, 12, "A", "G"⟩

/-! ## External tool invocations (cells 11, 15, 18, 20, 22, 28, 30, ...)

Every external invocation in the notebook is an IPython `!command` escape:
it blocks until the spawned process exits, displays its output, and
discards its exit status — no cell inspects, stores or propagates it (the
`subprocess` module is imported but never called).  `bangChain` embeds a
sequence of such invocations under an environment assigning each command
its exit status: every command runs once, whatever the statuses.
-/

def bangChain (exitCode : String → Int) (cmds : List String) : List (String × Int) :=
  cmds.map (fun c => (c, exitCode c))

/-- Written from the spec's words (sections 5 and 7, for the refutation):
run the commands in order checking each exit status, and halt the chain at
the first non-zero one. -/
def haltChain (exitCode : String → Int) : List String → List (String × Int)
  | [] => []
  | c :: cs =>
    if exitCode c = 0 then (c, exitCode c) :: haltChain exitCode cs
    else [(c, exitCode c)]

/-- An environment in which every invocation exits with status 1. -/
def failEnv : String → Int :=
  fun _ => 1

/-- Two successive plink invocations, as in cell 15. -/
def exCmds : List String :=
  ["plink --bfile IMMUNO_hg19", "plink --bfile NEUROX"]

/-! ## Determinism of the written set listings (cells 48 and 51)

`badsnps.txt` and `common_snps.txt` are written by enumerating a Python
set (`list(badSnps_set)`, `list(hp_snps)`).  CPython's iteration order
over a set of strings depends on the per-process string hash seed
(`PYTHONHASHSEED`, randomized by default), so across two runs the
enumeration is an arbitrary ordering of the same set: `runListing s l`
holds of every line list `l` that one run of `list(s)` can produce — the
elements of `s`, each exactly once, in some order.
-/

/-- Cell 48: `badSnps_set = set(badSnps.iloc[:,1].values.tolist())`. -/
def badSnps_set (vs : List Variant) : Finset String :=
  (badSnpIds vs).toFinset

/-- The possible outcomes of enumerating the unordered set `s` into the
lines of a written file during one run. -/
def runListing (s : Finset String) (l : List String) : Prop :=
  l.Nodup ∧ ∀ x, x ∈ l ↔ x ∈ s

/-- Concrete BIM with two ambiguous variants for the C10 scenario. -/
def exRunVs : List Variant :=
  [exA1, exA3]

end PDPipeline

open PDPipeline

/-- C1: the chromosome remapping applied before writing the liftover interval
file is total on chromosome labels (it is a total function on strings), and
applying the remap rules 23→X, 24→Y, 25→X, 26→MT in sequence to the inputs
"chr23", "chr24", "chr25", "chr26", "chr7" yields exactly
"chrX", "chrY", "chrX", "chrMT", "chr7". -/
theorem C1_chrom_remap_total_and_values :
    (∀ s : String, ∃ t : String, PDPipeline.remapChrom s = t) ∧
    ["chr23", "chr24", "chr25", "chr26", "chr7"].map PDPipeline.remapChrom =
      ["chrX", "chrY", "chrX", "chrMT", "chr7"] := by
  constructor
  · intro s
    exact ⟨PDPipeline.remapChrom s, rfl⟩
  · decide

/-- The notebook's sequential replace chain agrees with the spec's one-shot
lookup table on every PLINK chromosome code 0–26. -/
theorem remapChrom_eq_chromLabelSpec :
    ∀ c : Nat, c < 27 → remapChrom ("chr" ++ toString c) = chromLabelSpec c := by
  decide

/-- C5: for every variant record, the liftover interval file contains one
four-column row `(chrom, start, stop, feature id)` per variant, in order,
where `chrom` is the "chr"-prefixed chromosome label with 23/24/25/26
remapped to X/Y/X/MT, `start` is the base-pair position, `stop` is
`start + 1`, and the feature id is the variant identifier. -/
theorem C5_bed_interval_rows (vs : List Variant) (h : ∀ v ∈ vs, v.chrom ≤ 26) :
    bed vs = vs.map (fun v => (chromLabelSpec v.chrom, v.pos, v.pos + 1, v.id)) := by
  unfold bed
  refine List.map_congr_left ?_
  intro v hv
  unfold bedRow tmp_chr_str
  rw [remapChrom_eq_chromLabelSpec v.chrom (Nat.lt_succ_of_le (h v hv))]

/-- Witness for C5 at a concrete two-variant record set. -/
theorem C5_bed_interval_rows_witness :
    bed [exVariant23, exVariant7] =
      [("chrX", 100, 101, "rs23"), ("chr7", 200, 201, "rs7")] :=
  (C5_bed_interval_rows [exVariant23, exVariant7] (by decide)).trans (by decide)

/-- C2, counterexample: in the two-sample scenario the written removal list
is not the single entry S1 — `to_csv`'s default header row makes the file
start with the line "FID IID". -/
theorem C2_removal_list_counterexample :
    subjProblemLines exCheck ≠ ["FAM1 S1"] ∧
    subjProblemLines exCheck = ["FID IID", "FAM1 S1"] := by
  constructor
  · decide
  · decide

/-- C2 (amended): in the two-sample scenario the exclusion stage writes a
removal list consisting of the pandas header line "FID IID" followed by
exactly the single entry S1 (its FID/IID pair), and the subsequent filter
keeps exactly the sample set containing S2 alone. -/
theorem C2_problem_exclusion_amended :
    subjProblemLines exCheck = ["FID IID", "FAM1 S1"] ∧
    plinkRemove exFam (subjProblemLines exCheck) = [⟨"FAM2", "S2", "0", "0", 2, 1⟩] := by
  constructor
  · decide
  · decide

/-- A list of length five is an explicit five-element list. -/
theorem list_length_five {α : Type} {l : List α} (h : l.length = 5) :
    ∃ a b c d e : α, l = [a, b, c, d, e] := by
  rcases l with _ | ⟨a, l⟩
  · simp at h
  rcases l with _ | ⟨b, l⟩
  · simp at h
  rcases l with _ | ⟨c, l⟩
  · simp at h
  rcases l with _ | ⟨d, l⟩
  · simp at h
  rcases l with _ | ⟨e, l⟩
  · simp at h
  rcases l with _ | ⟨f, l⟩
  · exact ⟨a, b, c, d, e, rfl⟩
  · simp at h

/-- With reference mean 0 and standard deviation 1 on all five components,
the z-score row of a five-component sample is the sample itself. -/
theorem zRow_refMean0_refSd1 (xs : List ℚ) (h : xs.length = 5) :
    zRow refMean5 refSd5 xs = xs := by
  obtain ⟨a, b, c, d, e, hl⟩ := list_length_five h
  subst hl
  simp [zRow, refMean5, refSd5]

/-- `keep_ppmi` against mean 0 / sd 1 rejects a five-component sample iff
some component has absolute value above 5. -/
theorem keep_ppmi_false_iff (r : SampleRec) (h : r.pcs.length = 5) :
    keep_ppmi refMean5 refSd5 r = false ↔ ∃ x ∈ r.pcs, 5 < |x| := by
  rw [keep_ppmi, List.take_of_length_le (le_of_eq h), zRow_refMean0_refSd1 r.pcs h]
  simp [List.countP_eq_zero]

/-- C3: for every sample record carrying five ancestry principal-component
values, the z-score outlier filter with reference mean 0, standard
deviation 1 and threshold 5 excludes the sample iff at least one of its five
component z-scores has absolute value strictly greater than 5, and the
retained records are an unchanged, order-preserving selection of the
input. -/
theorem C3_zscore_outlier_filter (samples : List SampleRec)
    (h5 : ∀ r ∈ samples, r.pcs.length = 5) :
    (∀ r ∈ samples, (r ∉ ceuFilter refMean5 refSd5 samples ↔ ∃ x ∈ r.pcs, 5 < |x|)) ∧
    (ceuFilter refMean5 refSd5 samples).Sublist samples := by
  refine ⟨?_, List.filter_sublist _⟩
  intro r hr
  rw [← keep_ppmi_false_iff r (h5 r hr), ceuFilter]
  simp [List.mem_filter, hr]

/-- Witness for C3: the sample with first component 6 is excluded. -/
theorem C3_zscore_outlier_filter_witness :
    exOutlier ∉ ceuFilter refMean5 refSd5 exPca :=
  ((C3_zscore_outlier_filter exPca (by decide)).1 exOutlier (by decide)).mpr
    ⟨6, by decide, by decide⟩

/-- A variant is in the concatenation of the four bad-pair selections iff it
is an input variant whose allele pair is one of the four ambiguous pairs. -/
theorem mem_badSnps_iff (vs : List Variant) (w : Variant) :
    w ∈ badSnps vs ↔ w ∈ vs ∧ (w.a1, w.a2) ∈ ambigPairs := by
  simp [badSnps, ambigPairs, List.mem_filter, Prod.mk.injEq]
  tauto

/-- Under unique identifiers, an input variant's id is on the exclusion list
iff its allele pair is ambiguous. -/
theorem mem_badSnpIds_iff (vs : List Variant) (v : Variant)
    (hnd : (vs.map (fun w => w.id)).Nodup) (hv : v ∈ vs) :
    v.id ∈ badSnpIds vs ↔ (v.a1, v.a2) ∈ ambigPairs := by
  constructor
  · intro hid
    obtain ⟨w, hw, hwid⟩ := List.mem_map.mp hid
    obtain ⟨hwvs, hwpair⟩ := (mem_badSnps_iff vs w).mp hw
    have hweq : w = v := List.inj_on_of_nodup_map hnd hwvs hv hwid
    exact hweq ▸ hwpair
  · intro hp
    exact List.mem_map.mpr ⟨v, (mem_badSnps_iff vs v).mpr ⟨hv, hp⟩, rfl⟩

/-- C4: the ambiguous-allele filter applied to the five variants with allele
pairs (A,T), (T,A), (C,G), (G,C), (A,C) excludes exactly the first four and
retains the fifth; in general, on a record set with unique identifiers, a
variant is excluded iff its allele pair is one of
(A,T), (T,A), (C,G), (G,C). -/
theorem C4_ambiguous_allele_filter :
    ambiguousFilter exAmbig = [exA5] ∧
    ∀ (vs : List Variant) (v : Variant),
      (vs.map (fun w => w.id)).Nodup → v ∈ vs →
      (v ∉ ambiguousFilter vs ↔ (v.a1, v.a2) ∈ ambigPairs) := by
  constructor
  · decide
  · intro vs v hnd hv
    rw [← mem_badSnpIds_iff vs v hnd hv]
    simp [ambiguousFilter, List.mem_filter, hv, not_not]

/-- Witness for C4: the (A,T) variant is excluded in the five-variant
scenario. -/
theorem C4_ambiguous_allele_filter_witness :
    exA1 ∉ ambiguousFilter exAmbig :=
  (C4_ambiguous_allele_filter.2 exAmbig exA1 (by decide) (by decide)).mpr (by decide)

/-- C6: the filter stage's output is never longer than its input, is an
order-preserving selection of the input, consists exactly of the input
records satisfying the predicate (membership in both directions and exact
count), and re-filtering with the same predicate is a no-op. -/
theorem C6_filter_stage_contract {α : Type} (p : α → Bool) (rs : List α) :
    (filterStage p rs).length ≤ rs.length ∧
    (filterStage p rs).Sublist rs ∧
    (∀ r ∈ filterStage p rs, p r = true) ∧
    (∀ r ∈ rs, p r = true → r ∈ filterStage p rs) ∧
    (filterStage p rs).length = rs.countP p ∧
    filterStage p (filterStage p rs) = filterStage p rs := by
  refine ⟨(List.filter_sublist rs).length_le, List.filter_sublist rs, ?_, ?_, ?_, ?_⟩
  · intro r hr
    exact (List.mem_filter.mp hr).2
  · intro r hr hp
    exact List.mem_filter.mpr ⟨hr, hp⟩
  · simp [filterStage, List.countP_eq_length_filter]
  · simp [filterStage, List.filter_filter]

/-- Witness for C6 at the even-number predicate over [1, 2, 3, 4]. -/
theorem C6_filter_stage_contract_witness :
    2 ∈ filterStage evenPred exNums ∧
    filterStage evenPred (filterStage evenPred exNums) = filterStage evenPred exNums :=
  ⟨(C6_filter_stage_contract evenPred exNums).2.2.2.1 2 (by decide) (by decide),
   (C6_filter_stage_contract evenPred exNums).2.2.2.2.2⟩

/-- C7: the join/intersection stage is idempotent — intersecting an
intersection again with the second argument changes nothing — and the
resulting key set does not depend on the order of the arguments, both for
the SNP-id intersection and for the subject-id intersection. -/
theorem C7_intersection_idem_comm (A B : Finset String) :
    hp_snps (hp_snps A B) B = hp_snps A B ∧
    hp_snps A B = hp_snps B A ∧
    common_subj (common_subj A B) B = common_subj A B ∧
    common_subj A B = common_subj B A := by
  refine ⟨?_, Finset.inter_comm A B, ?_, Finset.inter_comm A B⟩
  · show A ∩ B ∩ B = A ∩ B
    rw [Finset.inter_assoc, Finset.inter_self]
  · show A ∩ B ∩ B = A ∩ B
    rw [Finset.inter_assoc, Finset.inter_self]

/-- Rebuilding the digit list of `n` gives back `n` (fuel version). -/
theorem unDigits_natDigitsAux (fuel : Nat) :
    ∀ n : Nat, n ≤ fuel → unDigits (natDigitsAux fuel n) = n := by
  induction fuel with
  | zero =>
    intro n hn
    interval_cases n
    simp [natDigitsAux, unDigits]
  | succ f ih =>
    intro n hn
    cases n with
    | zero => simp [natDigitsAux, unDigits]
    | succ m =>
      have hdiv : (m + 1) / 10 ≤ f := by
        have : (m + 1) / 10 < m + 1 := Nat.div_lt_self (Nat.succ_pos m) (by norm_num)
        omega
      simp [natDigitsAux, unDigits, ih _ hdiv]
      omega

/-- Rebuilding the digit list of `n` gives back `n`. -/
theorem unDigits_natDigits (n : Nat) : unDigits (natDigits n) = n :=
  unDigits_natDigitsAux n n le_rfl

/-- The decimal digit list determines the number. -/
theorem natDigits_injective : Function.Injective natDigits := by
  intro a b h
  rw [← unDigits_natDigits a, ← unDigits_natDigits b, h]

/-- Every emitted decimal digit is below 10. -/
theorem natDigitsAux_lt (fuel : Nat) :
    ∀ n d : Nat, d ∈ natDigitsAux fuel n → d < 10 := by
  induction fuel with
  | zero =>
    intro n d hd
    simp [natDigitsAux] at hd
  | succ f ih =>
    intro n d hd
    cases n with
    | zero => simp [natDigitsAux] at hd
    | succ m =>
      simp only [natDigitsAux, List.mem_cons] at hd
      rcases hd with rfl | hd
      · exact Nat.mod_lt _ (by norm_num)
      · exact ih _ _ hd

/-- The code of a decimal digit character. -/
theorem digitChar_toNat (d : Nat) (h : d < 10) : (digitChar d).toNat = 48 + d := by
  interval_cases d <;> decide

/-- Reading the digit values back from the numeral characters. -/
theorem natChars_val (n : Nat) :
    (natChars n).map (fun c => c.toNat - 48) = (natDigits n).reverse := by
  rw [natChars, List.map_map]
  have h : ∀ d ∈ (natDigits n).reverse,
      ((fun c : Char => c.toNat - 48) ∘ digitChar) d = d := by
    intro d hd
    have hd10 : d < 10 := natDigitsAux_lt n n d (List.mem_reverse.mp hd)
    simp [Function.comp, digitChar_toNat d hd10]
  rw [List.map_congr_left h]
  simp

/-- The decimal numeral determines the number. -/
theorem natChars_injective : Function.Injective natChars := by
  intro a b h
  apply natDigits_injective
  have hrev := congrArg (List.map (fun c : Char => c.toNat - 48)) h
  rw [natChars_val, natChars_val] at hrev
  exact List.reverse_injective hrev

/-- Numeral characters are decimal digits, never a separator. -/
theorem natChars_ne_sep (n : Nat) (c : Char) (hc : c ∈ natChars n) :
    c ≠ ':' ∧ c ≠ '_' := by
  obtain ⟨d, hd, rfl⟩ := List.mem_map.mp hc
  have hd10 : d < 10 := natDigitsAux_lt n n d (List.mem_reverse.mp hd)
  have ht : (digitChar d).toNat = 48 + d := digitChar_toNat d hd10
  constructor
  · intro h
    rw [h] at ht
    simp only [show Char.toNat ':' = 58 from rfl] at ht
    omega
  · intro h
    rw [h] at ht
    simp only [show Char.toNat '_' = 95 from rfl] at ht
    omega

/-- `takeWhile (≠ sep)` recovers a separator-free prefix. -/
theorem takeWhile_ne_append (sep : Char) (l r : List Char)
    (hl : ∀ c ∈ l, c ≠ sep) :
    (l ++ sep :: r).takeWhile (fun c => decide (c ≠ sep)) = l := by
  induction l with
  | nil => simp
  | cons a l ih =>
    have ha : a ≠ sep := hl a (by simp)
    have ih2 := ih (fun c hc => hl c (by simp [hc]))
    simpa [List.takeWhile_cons, ha] using ih2

/-- `dropWhile (≠ sep)` reaches the first separator. -/
theorem dropWhile_ne_append (sep : Char) (l r : List Char)
    (hl : ∀ c ∈ l, c ≠ sep) :
    (l ++ sep :: r).dropWhile (fun c => decide (c ≠ sep)) = sep :: r := by
  induction l with
  | nil => simp
  | cons a l ih =>
    have ha : a ≠ sep := hl a (by simp)
    have ih2 := ih (fun c hc => hl c (by simp [hc]))
    simpa [List.dropWhile_cons, ha] using ih2

/-- Splitting at the first separator after a separator-free prefix. -/
theorem splitHead_append (sep : Char) (l r : List Char)
    (hl : ∀ c ∈ l, c ≠ sep) :
    splitHead sep (l ++ sep :: r) = (l, r) := by
  rw [splitHead, takeWhile_ne_append sep l r hl, dropWhile_ne_append sep l r hl]
  rfl

/-- Decoding a derived key recovers its four segments, provided allele 1
contains no underscore. -/
theorem decodeKey_derivedKeyChars (v : Variant)
    (h1 : ∀ c ∈ v.a1.toList, c ≠ '_') :
    decodeKey (derivedKeyChars v) =
      (natChars v.chrom, natChars v.pos, v.a1.toList, v.a2.toList) := by
  have e1 := splitHead_append ':' (natChars v.chrom)
    (natChars v.pos ++ ('_' :: (v.a1.toList ++ ('_' :: v.a2.toList))))
    (fun c hc => (natChars_ne_sep v.chrom c hc).1)
  have e2 := splitHead_append '_' (natChars v.pos)
    (v.a1.toList ++ ('_' :: v.a2.toList))
    (fun c hc => (natChars_ne_sep v.pos c hc).2)
  have e3 := splitHead_append '_' v.a1.toList v.a2.toList h1
  simp only [String.toList] at e1 e2 e3
  simp [decodeKey, derivedKeyChars, String.toList, e1, e2, e3]

/-- C8: the rekeying function `chrom:pos_A1_A2` is deterministic — two
records with identical (chromosome, position, allele 1, allele 2) tuples
receive identical derived keys — and injective on well-formed records: for
single-character nucleotide alleles, identical derived keys force identical
tuples. -/
theorem C8_rekeying_deterministic_injective :
    (∀ v w : Variant,
      (v.chrom, v.pos, v.a1, v.a2) = (w.chrom, w.pos, w.a1, w.a2) →
      derivedKey v = derivedKey w) ∧
    (∀ v w : Variant,
      v.a1 ∈ nucStrings → v.a2 ∈ nucStrings →
      w.a1 ∈ nucStrings → w.a2 ∈ nucStrings →
      derivedKey v = derivedKey w →
      (v.chrom, v.pos, v.a1, v.a2) = (w.chrom, w.pos, w.a1, w.a2)) := by
  constructor
  · intro v w h
    simp only [Prod.mk.injEq] at h
    obtain ⟨h1, h2, h3, h4⟩ := h
    simp [derivedKey, derivedKeyChars, h1, h2, h3, h4]
  · intro v w hv1 _ hw1 _ hkey
    have hu : ∀ s : String, s ∈ nucStrings → ∀ c ∈ s.toList, c ≠ '_' := by decide
    have hchars : derivedKeyChars v = derivedKeyChars w := congrArg String.data hkey
    have hd := congrArg decodeKey hchars
    rw [decodeKey_derivedKeyChars v (hu v.a1 hv1),
      decodeKey_derivedKeyChars w (hu w.a1 hw1)] at hd
    simp only [Prod.mk.injEq] at hd
    obtain ⟨e1, e2, e3, e4⟩ := hd
    simp only [Prod.mk.injEq]
    exact ⟨natChars_injective e1, natChars_injective e2, String.ext e3, String.ext e4⟩

/-- Witness for C8: two variants named by different conventions but with
the same locus and alleles have the same derived key, hence the same
tuple. -/
theorem C8_rekeying_witness :
    (exKeyA.chrom, exKeyA.pos, exKeyA.a1, exKeyA.a2) =
      (exKeyB.chrom, exKeyB.pos, exKeyB.a1, exKeyB.a2) :=
  C8_rekeying_deterministic_injective.2 exKeyA exKeyB
    (by decide) (by decide) (by decide) (by decide) (by decide)

/-- C9, counterexample: with both plink invocations of cell 15 failing
(exit status 1), the notebook's invocation chain still runs the second
command, while a status-checking chain that propagates the failure as
fatal would have halted after the first — the exit status is silently
ignored, not checked. -/
theorem C9_exit_status_counterexample :
    failEnv "plink --bfile IMMUNO_hg19" ≠ 0 ∧
    bangChain failEnv exCmds ≠ haltChain failEnv exCmds := by
  constructor
  · decide
  · decide

/-- C9 (amended): every external tool invocation blocks until the tool
exits, but its exit status is discarded rather than checked: every command
of the chain runs exactly once, in order, regardless of the statuses of
the preceding commands, and a non-zero status neither halts the chain nor
triggers a retry. -/
theorem C9_invocations_run_regardless (exitCode : String → Int) (cmds : List String) :
    (bangChain exitCode cmds).map Prod.fst = cmds ∧
    (bangChain exitCode cmds).length = cmds.length ∧
    ∀ c cs, bangChain exitCode (c :: cs) = (c, exitCode c) :: bangChain exitCode cs := by
  refine ⟨?_, ?_, fun c cs => rfl⟩
  · rw [bangChain, List.map_map]
    refine (List.map_congr_left ?_).trans (List.map_id cmds)
    intro c _
    rfl
  · simp [bangChain]

/-- C10, counterexample: two admissible enumerations of the ambiguous-SNP
id set of the same input differ in line order, so two runs on identical
input files need not write `badsnps.txt` with identical line order. -/
theorem C10_listing_order_counterexample :
    runListing (badSnps_set exRunVs) ["s1", "s3"] ∧
    runListing (badSnps_set exRunVs) ["s3", "s1"] ∧
    (["s1", "s3"] : List String) ≠ ["s3", "s1"] := by
  have h : badSnpIds exRunVs = ["s1", "s3"] := by decide
  refine ⟨⟨by decide, fun x => ?_⟩, ⟨by decide, fun x => ?_⟩, by decide⟩
  · simp [badSnps_set, h, List.mem_toFinset]
  · simp [badSnps_set, h, List.mem_toFinset]
    tauto

/-- C10 (amended): any two runs' enumerations of the same unordered id set
have identical content — the same lines, each exactly once, i.e. they are
permutations of each other — though not necessarily the same line order. -/
theorem C10_listing_content_deterministic (s : Finset String) (l1 l2 : List String)
    (h1 : runListing s l1) (h2 : runListing s l2) : l1.Perm l2 :=
  (List.perm_ext_iff_of_nodup h1.1 h2.1).mpr (fun a => (h1.2 a).trans ((h2.2 a).symm))

/-- Witness for C10 at the two concrete enumerations of the two-element
ambiguous-SNP id set. -/
theorem C10_listing_content_deterministic_witness :
    (["s1", "s3"] : List String).Perm ["s3", "s1"] :=
  C10_listing_content_deterministic (badSnps_set exRunVs) ["s1", "s3"] ["s3", "s1"]
    ⟨by decide, fun x => by
      simp [badSnps_set, show badSnpIds exRunVs = ["s1", "s3"] from by decide,
        List.mem_toFinset]⟩
    ⟨by decide, fun x => by
      simp [badSnps_set, show badSnpIds exRunVs = ["s1", "s3"] from by decide,
        List.mem_toFinset]
      tauto⟩
